import Mathlib

/-
Verification development for the realtime-call-agent repository
(voice_caller).  The definitions below are a shallow embedding of the
per-call session state machine and its three streaming clients:

  * src/voice_caller/src/tts_handler.py   (TTSHandler)
  * src/voice_caller/src/stt_handler.py   (STTHandler)
  * src/voice_caller/src/llm_handler.py   (LLMHandler.generate_response_stream)
  * src/voice_caller/src/websocket_server.py (CallSession / SessionManager)

Python strings are modelled as List Char; audio frames are modelled as
opaque identifiers (Nat); network effects are modelled as explicit
output lists; exceptions/timeouts are modelled by outcome parameters.
-/

namespace VoiceCaller

/-- Audio frames (decoded mulaw chunks) are treated as opaque values. -/
abbrev Frame := Nat

/-! ## Python string helpers

Python str.strip / str.rstrip default whitespace set, restricted to the
ASCII whitespace characters: space, tab, LF, VT, FF, CR. -/

/-- Python default whitespace test (ASCII subset). -/
def pyWhite (c : Char) : Bool :=
  c = ' ' || c = Char.ofNat 9 || c = Char.ofNat 10 || c = Char.ofNat 11 ||
  c = Char.ofNat 12 || c = Char.ofNat 13

/-- Python str.lstrip() on a character list. -/
def lstripL (l : List Char) : List Char := l.dropWhile pyWhite

/-- Python str.rstrip() on a character list. -/
def rstripL (l : List Char) : List Char := (l.reverse.dropWhile pyWhite).reverse

/-- Python str.strip() on a character list. -/
def stripL (l : List Char) : List Char := rstripL (lstripL l)

/-- The apostrophe character, used in the canned fallback texts. -/
def aposC : Char := Char.ofNat 39

/-! ## Bounded deques

`collections.deque(maxlen=cap)`: appending to a full deque evicts the
oldest (leftmost) element.  `CallSession.audio_buffer` has maxlen 500 and
`CallSession.tts_audio_queue` has maxlen 1000 (websocket_server.py:45-46). -/

/-- maxlen of CallSession.audio_buffer (the pre-greeting buffer). -/
def AUDIO_BUFFER_CAP : Nat := 500

/-- maxlen of CallSession.tts_audio_queue (the outbound TTS queue). -/
def TTS_QUEUE_CAP : Nat := 1000

/-- deque.append with a maxlen: a full deque evicts its oldest element. -/
def dequeAppend (cap : Nat) (l : List Frame) (x : Frame) : List Frame :=
  if cap = 0 then []
  else if l.length < cap then l ++ [x]
  else l.drop 1 ++ [x]

/-- The operations the code performs on its two bounded deques:
append (audio callback / media buffering), popleft (drain loop), clear
(pre-greeting discard). -/
inductive QOp where
  | push (x : Frame)
  | popLeft
  | clearQ

/-- One deque operation. popleft is only invoked on nonempty deques in the
code (the drain loop tests the deque first); on the empty list it is a
no-op here. -/
def applyQOp (cap : Nat) (l : List Frame) : QOp → List Frame
  | .push x => dequeAppend cap l x
  | .popLeft => l.drop 1
  | .clearQ => []

/-- A deque state reachable from empty by a sequence of operations. -/
def runQOps (cap : Nat) (ops : List QOp) : List Frame :=
  ops.foldl (applyQOp cap) []

/-! ## TTS handler (tts_handler.py)

`TTSState` holds is_connected / is_speaking; the handler additionally
keeps `self.connection` (present after a successful connect) and the
`_cancel_event` flag.  Messages sent over the Deepgram speak socket are
recorded explicitly. -/

/-- Control/text messages sent to the remote synthesizer. -/
inductive TTSOut where
  | textMsg (t : List Char)
  | flushMsg
  | clearMsg
  | closeMsg
deriving DecidableEq

/-- TTSHandler mutable state: TTSState.is_connected / is_speaking,
whether self.connection is set, and the `_cancel_event` flag. -/
structure TTSFlags where
  has_connection : Bool := false
  is_connected : Bool := false
  is_speaking : Bool := false
  cancel_flag : Bool := false
deriving DecidableEq

/-- TTSHandler.FLUSH_CHARS: sentence boundary characters for flushing. -/
def FLUSH_CHARS : List Char := ['.', '!', '?', ':', ';']

/-- Whether text[-1] is a flush character (for nonempty text). -/
def lastFlushChar (t : List Char) : Bool :=
  match t.getLast? with
  | some c => FLUSH_CHARS.contains c
  | none => false

/-- TTSHandler.send_text: skip when no connection or empty text; otherwise
mark is_speaking, send the text, and send a flush when the final character
is a flush character. -/
def send_text_fn (st : TTSFlags) (t : List Char) : TTSFlags × List TTSOut :=
  if !st.has_connection || !st.is_connected then (st, [])
  else if t = [] then (st, [])
  else
    let st1 := { st with is_speaking := true }
    if lastFlushChar t then (st1, [TTSOut.textMsg t, TTSOut.flushMsg])
    else (st1, [TTSOut.textMsg t])

/-- TTSHandler.cancel: set the local cancel flag (synchronously), clear
is_speaking, and when connected issue a remote Clear. -/
def tts_cancel_fn (st : TTSFlags) : TTSFlags × List TTSOut :=
  let st1 := { st with cancel_flag := true, is_speaking := false }
  if st1.has_connection && st1.is_connected then (st1, [TTSOut.clearMsg])
  else (st1, [])

/-- TTSHandler.reset_cancel: clear the cancel flag for new generation. -/
def reset_cancel_fn (st : TTSFlags) : TTSFlags :=
  { st with cancel_flag := false }

/-- Whether the audio branch of TTSHandler._process_message invokes the
registered on_audio callback: requires a registered callback and the
cancel flag not set. -/
def audioDelivered (registered : Bool) (st : TTSFlags) : Bool :=
  registered && !st.cancel_flag

/-- Events a TTSHandler can see between a cancel() and the next
reset_cancel(): remote audio and Flushed messages, plus local send_text /
flush / cancel calls.  reset_cancel is deliberately not an event here:
the claim is about the interval before it is called. -/
inductive TTSEvt where
  | audioMsg (m : Frame)
  | sendTextE (t : List Char)
  | flushE
  | cancelE
  | flushedE

/-- State transition of TTSFlags under one event (from tts_handler.py:
send_text sets is_speaking, cancel sets the flag, a Flushed message
clears is_speaking). -/
def ttsEvtStep (st : TTSFlags) : TTSEvt → TTSFlags
  | .audioMsg _ => st
  | .sendTextE t => ((send_text_fn st t).1)
  | .flushE => st
  | .cancelE => (tts_cancel_fn st).1
  | .flushedE => { st with is_speaking := false }

/-- The audio frames actually delivered to the on_audio callback over a
sequence of events. -/
def deliveredAudio (registered : Bool) : TTSFlags → List TTSEvt → List Frame
  | _, [] => []
  | st, e :: es =>
    (match e with
     | .audioMsg m => if audioDelivered registered st then [m] else []
     | _ => []) ++ deliveredAudio registered (ttsEvtStep st e) es

/-- The session outbound queue after a sequence of TTS events: each
delivered audio frame is appended by the session on_tts_audio callback
(websocket_server.py:216-225) when the session is active. -/
def runTTSQueue (registered active : Bool) : TTSFlags → List Frame → List TTSEvt → List Frame
  | _, q, [] => q
  | st, q, e :: es =>
    let q2 := match e with
      | .audioMsg m =>
        if audioDelivered registered st && active then dequeAppend TTS_QUEUE_CAP q m else q
      | _ => q
    runTTSQueue registered active (ttsEvtStep st e) q2 es

/-! ## STT handler (stt_handler.py)

STTState carries the transcript bookkeeping; the consolidated
speech-ended / utterance-end emissions towards the session handler
(on_user_finished) are recorded as a list of composed transcripts. -/

/-- STTState (stt_handler.py:33-39). -/
structure STTSt where
  is_connected : Bool := false
  is_speaking : Bool := false
  current_transcript : List Char := []
  transcript_parts : List (List Char) := []
deriving DecidableEq

/-- STTHandler.get_full_transcript: join the final parts with a single
space and strip. -/
def get_full_transcript (st : STTSt) : List Char :=
  stripL (List.intercalate [' '] st.transcript_parts)

/-- STTHandler.reset_transcript. -/
def reset_transcript (st : STTSt) : STTSt :=
  { st with current_transcript := [], transcript_parts := [] }

/-- STTHandler._handle_transcript for a Results message carrying one
alternative with the given transcript text and flags.  The second
component lists the transcripts emitted to the registered on_speech_ended
callback. -/
def handle_transcript (st : STTSt) (text : List Char) (is_final speech_final : Bool) :
    STTSt × List (List Char) :=
  if text = [] then (st, [])
  else
    let st1 :=
      if is_final then { st with transcript_parts := st.transcript_parts ++ [text] }
      else { st with current_transcript := text }
    if speech_final then
      let full := get_full_transcript st1
      let ems := if full = [] then [] else [full]
      (reset_transcript st1, ems)
    else (st1, [])

/-- STTHandler._handle_utterance_end: clear is_speaking, emit the composed
transcript to the registered on_utterance_end callback when nonempty,
then reset the transcript buffers. -/
def handle_utterance_end_fn (st : STTSt) : STTSt × List (List Char) :=
  let st1 := { st with is_speaking := false }
  let full := get_full_transcript st1
  let ems := if full = [] then [] else [full]
  (reset_transcript st1, ems)

/-! ## LLM handler (llm_handler.py)

`generate_response_stream` is embedded as a function of the conversation
history, the user input and a stream outcome.  The outcome fixes what the
remote side did: request failure (non-200 / timeout / connect error
before any byte, `_make_request` returned None), a completed stream whose
decoded "text" fragments are given, a mid-stream aiohttp.ClientError or
other exception after a prefix of fragments, or a task cancellation
(barge-in) after a prefix of fragments.  CancelledError is not caught by
the `except Exception` clauses, so a cancelled run appends no assistant
message. -/

/-- A conversation message (llm_handler.py Message dataclass). -/
structure Message where
  role : String
  content : List Char
deriving DecidableEq

/-- Fallback when _make_request returns None (llm_handler.py:187). -/
def fb_trouble_now : List Char :=
  "I".toList ++ [aposC] ++ "m sorry, I".toList ++ [aposC] ++
    "m having trouble responding right now.".toList

/-- Fallback on an empty completion (llm_handler.py:233). -/
def fb_repeat : List Char :=
  "I".toList ++ [aposC] ++ "m sorry, could you repeat that?".toList

/-- Fallback on aiohttp.ClientError (llm_handler.py:239). -/
def fb_connecting : List Char :=
  "I".toList ++ [aposC] ++ "m sorry, I".toList ++ [aposC] ++
    "m having trouble connecting.".toList

/-- Fallback on any other mid-stream exception (llm_handler.py:244). -/
def fb_responding : List Char :=
  "I".toList ++ [aposC] ++ "m sorry, I".toList ++ [aposC] ++
    "m having trouble responding.".toList

/-- Whether a text is one of the four canned apology fallbacks. -/
def isApology (t : List Char) : Bool :=
  t = fb_trouble_now || t = fb_repeat || t = fb_connecting || t = fb_responding

/-- text_buffer.rstrip().endswith((chr 46, chr 33, chr 63)): the yielded
sentence-boundary test of llm_handler.py:215. -/
def sentenceEndB (l : List Char) : Bool :=
  match (rstripL l).getLast? with
  | some c => c = '.' || c = '!' || c = '?'
  | none => false

/-- text.endswith(single space), llm_handler.py:218. -/
def endsSpaceB (l : List Char) : Bool :=
  match l.getLast? with
  | some c => c = ' '
  | none => false

/-- One decoded fragment of the chunking loop (llm_handler.py:206-220):
an empty decoded text is skipped; otherwise the fragment is appended to
the buffer, which is yielded when its right-stripped form ends in a
sentence terminator, or else when it exceeds 40 characters and the
fragment ends with a space. -/
def chunkStep (buf frag : List Char) : List (List Char) × List Char :=
  if frag = [] then ([], buf)
  else
    let buf2 := buf ++ frag
    if sentenceEndB buf2 then ([buf2], [])
    else if decide (40 < buf2.length) && endsSpaceB frag then ([buf2], [])
    else ([], buf2)

/-- The chunking loop over a fragment list, threading the text buffer;
returns (yielded chunks, final buffer residue). -/
def chunkRunAux (buf : List Char) : List (List Char) → List (List Char) × List Char
  | [] => ([], buf)
  | f :: fs =>
    let p := chunkStep buf f
    let q := chunkRunAux p.2 fs
    (p.1 ++ q.1, q.2)

/-- The chunking loop starting from an empty buffer. -/
def chunkRun (frags : List (List Char)) : List (List Char) × List Char :=
  chunkRunAux [] frags

/-- What the remote stream did during one generate_response_stream run. -/
inductive LLMOutcome where
  | requestFail
  | streamOk (frags : List (List Char))
  | clientErr (frags : List (List Char))
  | otherErr (frags : List (List Char))
  | cancelledMid (frags : List (List Char))
deriving DecidableEq

/-- Whether the run was cancelled (barge-in). -/
def isCancelledO : LLMOutcome → Bool
  | .cancelledMid _ => true
  | _ => false

/-- LLMHandler.generate_response_stream (llm_handler.py:152-249), as a
function from (history, user input, stream outcome) to (new history,
yielded fragments).  The user message is appended first; on a completed
stream the residue is yielded and the full response (or the canned
empty-completion fallback) is appended; a mid-stream exception appends
and yields its fallback; a cancellation appends nothing. -/
def generate_response_stream (hist : List Message) (u : List Char) (o : LLMOutcome) :
    List Message × List (List Char) :=
  let hist1 := hist ++ [⟨"user", u⟩]
  match o with
  | .requestFail =>
    (hist1 ++ [⟨"assistant", fb_trouble_now⟩], [fb_trouble_now])
  | .streamOk frags =>
    let p := chunkRun frags
    let ys := p.1 ++ (if p.2 = [] then [] else [p.2])
    let full := frags.flatten
    if full = [] then (hist1 ++ [⟨"assistant", fb_repeat⟩], ys ++ [fb_repeat])
    else (hist1 ++ [⟨"assistant", full⟩], ys)
  | .clientErr frags =>
    (hist1 ++ [⟨"assistant", fb_connecting⟩], (chunkRun frags).1 ++ [fb_connecting])
  | .otherErr frags =>
    (hist1 ++ [⟨"assistant", fb_responding⟩], (chunkRun frags).1 ++ [fb_responding])
  | .cancelledMid frags =>
    (hist1, (chunkRun frags).1)

/-- The assistant text a non-cancelled run appends (by the cases of
generate_response_stream). -/
def assistantTextOf : LLMOutcome → List Char
  | .requestFail => fb_trouble_now
  | .streamOk frags => if frags.flatten = [] then fb_repeat else frags.flatten
  | .clientErr _ => fb_connecting
  | .otherErr _ => fb_responding
  | .cancelledMid _ => []

/-- Whether the run completed with a nonempty full response. -/
def successNonempty : LLMOutcome → Bool
  | .streamOk frags => !(frags.flatten = [])
  | _ => false

/-- The decoded fragments an outcome carries. -/
def fragsOf : LLMOutcome → List (List Char)
  | .requestFail => []
  | .streamOk frags => frags
  | .clientErr frags => frags
  | .otherErr frags => frags
  | .cancelledMid frags => frags

/-- The claim C7 yield condition, as literally stated in the spec: the
buffer ends with one of the three sentence terminators, or it exceeds 40
characters and the latest fragment ends with a space.  Stated from the
spec wording (no whitespace stripping) for comparison against chunkStep. -/
def specYieldCond (buf2 frag : List Char) : Bool :=
  (match buf2.getLast? with
   | some c => c = '.' || c = '!' || c = '?'
   | none => false) ||
  (decide (40 < buf2.length) && endsSpaceB frag)

/-! ## Call session (websocket_server.py)

CallSession is the per-call dataclass; the asyncio.Task handle
pending_response_task is modelled by an optional task status. -/

/-- Status of the pending response task: asyncio .done() is true for a
finished or an already-cancelled task. -/
inductive TaskSt where
  | running
  | finished
  | cancelledT
deriving DecidableEq

/-- CallSession (websocket_server.py:32-55), restricted to the
state-carrying fields; the STT connection flag and the TTS handler flags
are inlined. -/
structure CallSession where
  is_active : Bool := true
  is_bot_speaking : Bool := false
  pending_response_task : Option TaskSt := none
  audio_buffer : List Frame := []
  tts_audio_queue : List Frame := []
  is_ready : Bool := false
  barge_in_enabled : Bool := false
  stt_enabled : Bool := false
  tts_audio_count : Nat := 0
  tts_audio_sent : Nat := 0
  stt_connected : Bool := false
  tts : TTSFlags := {}
deriving DecidableEq

/-- The barge-in guard of on_speech_started (websocket_server.py:190). -/
def bargeCond (s : CallSession) : Bool :=
  s.is_bot_speaking && s.barge_in_enabled && decide (10 < s.tts_audio_sent)

/-- on_speech_started (websocket_server.py:188-199): under the guard,
call tts.cancel(), clear is_bot_speaking, zero tts_audio_sent, and cancel
a still-running pending response task; otherwise only log.  The second
component records the messages sent to the remote synthesizer. -/
def on_speech_started_fn (s : CallSession) : CallSession × List TTSOut :=
  if bargeCond s then
    let p := tts_cancel_fn s.tts
    let s1 := { s with tts := p.1, is_bot_speaking := false, tts_audio_sent := 0 }
    let s2 :=
      match s1.pending_response_task with
      | some TaskSt.running => { s1 with pending_response_task := some TaskSt.cancelledT }
      | _ => s1
    (s2, p.2)
  else (s, [])

/-- SessionManager.handle_media (websocket_server.py:254-277) for one
frame: non-inbound tracks and missing payloads are ignored; inbound audio
is forwarded to STT when the session is ready, STT connected and the gate
on; it is discarded when the gate is off; otherwise it is appended to the
bounded audio_buffer.  The second component is the frame forwarded to
STT, if any. -/
def handle_media_fn (s : CallSession) (track : String) (audio : Option Frame) :
    CallSession × Option Frame :=
  if track ≠ "inbound" then (s, none)
  else
    match audio with
    | none => (s, none)
    | some a =>
      if s.is_ready && s.stt_connected && s.stt_enabled then (s, some a)
      else if !s.stt_enabled then (s, none)
      else ({ s with audio_buffer := dequeAppend AUDIO_BUFFER_CAP s.audio_buffer a }, none)

/-- SessionManager._send_greeting (websocket_server.py:144-183) projected
onto the session flags: the try body turns the gates off while the
greeting plays and turns them on at its end; `raisesB` records whether
sending/flushing/waiting raised, in which case the on-path assignments at
the end of the try body are skipped; the finally block runs in either
case and force-sets all three flags. -/
def send_greeting_fn (s : CallSession) (raisesB : Bool) : CallSession :=
  let s1 := { s with is_bot_speaking := true, stt_enabled := false, barge_in_enabled := false }
  let s2 := if raisesB then s1 else { s1 with stt_enabled := true, barge_in_enabled := true }
  { s2 with is_bot_speaking := false, stt_enabled := true, barge_in_enabled := true }

/-! ## Conversation-level event model

The conversation history lives in LLMHandler.state.messages and is only
written by generate_response_stream, which the session runs from
on_user_finished (websocket_server.py:201-214) on each consolidated
transcript; a transcript that is empty after strip returns early.  An
event pairs the transcript with the outcome of the spawned run
(cancelledMid being the barge-in / close cancellation). -/

/-- One accepted-or-rejected user-finished event with its run outcome. -/
inductive CallEvent where
  | userFinished (t : List Char) (o : LLMOutcome)
deriving DecidableEq

/-- Effect of one user-finished event on the conversation history. -/
def applyEvent (hist : List Message) : CallEvent → List Message
  | .userFinished t o =>
    if stripL t = [] then hist
    else (generate_response_stream hist t o).1

/-- The conversation history reached from the empty history by a sequence
of user-finished events. -/
def reachableConv (es : List CallEvent) : List Message :=
  es.foldl applyEvent []

/-- No two consecutive turns share a role. -/
def alternates : List Message → Bool
  | [] => true
  | [_] => true
  | a :: b :: rest => decide (a.role ≠ b.role) && alternates (b :: rest)

/-- Whether a history may be followed by a user turn: it is empty or ends
with an assistant turn. -/
def endsAssistant (h : List Message) : Bool :=
  match h.getLast? with
  | none => true
  | some m => decide (m.role = "assistant")

/-- Whether an event sequence contains no cancelled (barge-in) run. -/
def noCancelEvents (es : List CallEvent) : Bool :=
  es.all fun e => match e with | .userFinished _ o => !isCancelledO o

/-! ## Helper lemmas -/

/-- Appending to a deque within its capacity stays within capacity. -/
theorem dequeAppend_length_le {cap : Nat} {l : List Frame} (x : Frame)
    (h : l.length ≤ cap) : (dequeAppend cap l x).length ≤ cap := by
  unfold dequeAppend
  split
  · simp
  · split
    · simp
      omega
    · simp
      omega

/-- Every deque operation preserves the capacity bound. -/
theorem applyQOp_length_le {cap : Nat} {l : List Frame} (op : QOp)
    (h : l.length ≤ cap) : (applyQOp cap l op).length ≤ cap := by
  cases op with
  | push x => exact dequeAppend_length_le x h
  | popLeft =>
    simp [applyQOp]
    omega
  | clearQ => simp [applyQOp]

/-- A fold of deque operations preserves the capacity bound. -/
theorem foldl_applyQOp_length_le (cap : Nat) (ops : List QOp) :
    ∀ l : List Frame, l.length ≤ cap → (ops.foldl (applyQOp cap) l).length ≤ cap := by
  induction ops with
  | nil => intro l h; simpa using h
  | cons op ops ih =>
    intro l h
    simpa using ih _ (applyQOp_length_le op h)

/-- send_text never touches the cancel flag. -/
theorem send_text_fn_cancel_flag (st : TTSFlags) (t : List Char) :
    ((send_text_fn st t).1).cancel_flag = st.cancel_flag := by
  unfold send_text_fn
  split
  · rfl
  · split
    · rfl
    · split <;> rfl

/-- cancel() always leaves the cancel flag set. -/
theorem tts_cancel_fn_cancel_flag (st : TTSFlags) :
    ((tts_cancel_fn st).1).cancel_flag = true := by
  cases h : st.has_connection && st.is_connected <;> simp [tts_cancel_fn, h]

/-- No TTS event other than reset_cancel clears the cancel flag. -/
theorem ttsEvtStep_cancel_flag {st : TTSFlags} (e : TTSEvt)
    (h : st.cancel_flag = true) : (ttsEvtStep st e).cancel_flag = true := by
  cases e with
  | audioMsg m => exact h
  | sendTextE t => rw [ttsEvtStep, send_text_fn_cancel_flag]; exact h
  | flushE => exact h
  | cancelE => exact tts_cancel_fn_cancel_flag st
  | flushedE => exact h

/-- While the cancel flag is set, no audio is delivered to on_audio. -/
theorem deliveredAudio_nil_of_cancel (reg : Bool) (es : List TTSEvt) :
    ∀ st : TTSFlags, st.cancel_flag = true → deliveredAudio reg st es = [] := by
  induction es with
  | nil => intro st _; rfl
  | cons e es ih =>
    intro st h
    cases e with
    | audioMsg m =>
      simp [deliveredAudio, audioDelivered, h]
      exact ih _ (ttsEvtStep_cancel_flag _ h)
    | sendTextE t =>
      simpa [deliveredAudio] using ih _ (ttsEvtStep_cancel_flag _ h)
    | flushE =>
      simpa [deliveredAudio] using ih _ (ttsEvtStep_cancel_flag _ h)
    | cancelE =>
      simpa [deliveredAudio] using ih _ (ttsEvtStep_cancel_flag _ h)
    | flushedE =>
      simpa [deliveredAudio] using ih _ (ttsEvtStep_cancel_flag _ h)

/-- While the cancel flag is set, the session queue is unchanged. -/
theorem runTTSQueue_const_of_cancel (reg active : Bool) (es : List TTSEvt) :
    ∀ (st : TTSFlags) (q : List Frame), st.cancel_flag = true →
      runTTSQueue reg active st q es = q := by
  induction es with
  | nil => intro st q _; rfl
  | cons e es ih =>
    intro st q h
    cases e with
    | audioMsg m =>
      simp [runTTSQueue, audioDelivered, h]
      exact ih _ _ (ttsEvtStep_cancel_flag _ h)
    | sendTextE t =>
      simpa [runTTSQueue] using ih _ q (ttsEvtStep_cancel_flag _ h)
    | flushE =>
      simpa [runTTSQueue] using ih _ q (ttsEvtStep_cancel_flag _ h)
    | cancelE =>
      simpa [runTTSQueue] using ih _ q (ttsEvtStep_cancel_flag _ h)
    | flushedE =>
      simpa [runTTSQueue] using ih _ q (ttsEvtStep_cancel_flag _ h)

/-- The chunking loop loses no text: the yielded chunks followed by the
residue reassemble the initial buffer and every fragment. -/
theorem chunkRunAux_flatten (fs : List (List Char)) :
    ∀ buf, (chunkRunAux buf fs).1.flatten ++ (chunkRunAux buf fs).2 = buf ++ fs.flatten := by
  induction fs with
  | nil => intro buf; simp [chunkRunAux]
  | cons f fs ih =>
    intro buf
    simp only [chunkRunAux]
    by_cases hf0 : f = []
    · simp [chunkStep, hf0, ih]
    · unfold chunkStep
      simp only [hf0, if_neg, ite_false]
      split
      · simp [ih]
      · split
        · simp [ih]
        · simp [ih]

/-- A non-cancelled generate_response_stream run appends exactly a user
turn and an assistant turn. -/
theorem grs_shape (hist : List Message) (u : List Char) (o : LLMOutcome)
    (h : isCancelledO o = false) :
    ∃ m, (generate_response_stream hist u o).1 =
      hist ++ [⟨"user", u⟩, ⟨"assistant", m⟩] := by
  cases o with
  | requestFail => exact ⟨fb_trouble_now, by simp [generate_response_stream]⟩
  | streamOk frags =>
    by_cases hf : frags.flatten = []
    · exact ⟨fb_repeat, by simp [generate_response_stream, hf]⟩
    · exact ⟨frags.flatten, by simp [generate_response_stream, hf]⟩
  | clientErr frags => exact ⟨fb_connecting, by simp [generate_response_stream]⟩
  | otherErr frags => exact ⟨fb_responding, by simp [generate_response_stream]⟩
  | cancelledMid frags => simp [isCancelledO] at h

/-- Appending a user/assistant pair to an alternating history that ends
with an assistant turn keeps it alternating and assistant-ended. -/
theorem alternates_append_pair (u a : List Char) :
    ∀ h : List Message, alternates h = true → endsAssistant h = true →
      alternates (h ++ [⟨"user", u⟩, ⟨"assistant", a⟩]) = true ∧
      endsAssistant (h ++ [⟨"user", u⟩, ⟨"assistant", a⟩]) = true := by
  intro h
  induction h with
  | nil =>
    intro _ _
    constructor
    · show alternates [⟨"user", u⟩, ⟨"assistant", a⟩] = true
      simp [alternates]
    · show endsAssistant [⟨"user", u⟩, ⟨"assistant", a⟩] = true
      simp [endsAssistant]
  | cons x t ih =>
    intro h1 h2
    cases t with
    | nil =>
      simp [endsAssistant] at h2
      constructor
      · show alternates [x, ⟨"user", u⟩, ⟨"assistant", a⟩] = true
        simp [alternates, h2]
      · show endsAssistant [x, ⟨"user", u⟩, ⟨"assistant", a⟩] = true
        simp [endsAssistant]
    | cons y tt =>
      simp only [alternates, Bool.and_eq_true] at h1
      have h2' : endsAssistant (y :: tt) = true := by
        simpa [endsAssistant] using h2
      have ihr := ih h1.2 h2'
      constructor
      · show (decide (x.role ≠ y.role) &&
            alternates ((y :: tt) ++ [⟨"user", u⟩, ⟨"assistant", a⟩])) = true
        rw [Bool.and_eq_true]
        exact ⟨h1.1, ihr.1⟩
      · simpa [endsAssistant] using ihr.2

/-! ## Claim theorems -/

/-- A concrete Speaking-phase session used to exercise the barge-in
handler: bot speaking, barge-in armed, 50 chunks sent, a frame still
queued, a running response task, TTS connected. -/
def bargeDemoSession : CallSession :=
  { is_bot_speaking := true, barge_in_enabled := true, tts_audio_sent := 50,
    tts_audio_queue := [7], pending_response_task := some TaskSt.running,
    tts := { has_connection := true, is_connected := true } }

/-- C1 (counterexample): the claim says a triggered barge-in drops all
frames currently in the outbound TTS queue; in the code on_speech_started
never touches tts_audio_queue, so at a Speaking state with one queued
frame the queue is unchanged after the handler runs. -/
theorem bargein_queue_not_dropped_cex :
    (on_speech_started_fn bargeDemoSession).1.tts_audio_queue = [7] ∧
    ¬((on_speech_started_fn bargeDemoSession).1.tts_audio_queue = []) := by
  decide

/-- C1 (amended): when the bot is speaking, barge-in is armed and more
than 10 TTS chunks have been sent, on_speech_started sets the local TTS
cancel flag, issues the remote Clear (when connected), clears
is_bot_speaking, resets tts_audio_sent to 0 and cancels a still-running
pending LLM task, leaving the outbound TTS queue untouched; otherwise it
changes nothing and sends nothing. -/
theorem bargein_amended (s : CallSession) :
    (bargeCond s = true →
      (on_speech_started_fn s).1.tts.cancel_flag = true ∧
      (on_speech_started_fn s).1.is_bot_speaking = false ∧
      (on_speech_started_fn s).1.tts_audio_sent = 0 ∧
      (on_speech_started_fn s).1.tts_audio_queue = s.tts_audio_queue ∧
      (s.pending_response_task = some TaskSt.running →
        (on_speech_started_fn s).1.pending_response_task = some TaskSt.cancelledT) ∧
      (s.tts.has_connection = true → s.tts.is_connected = true →
        (on_speech_started_fn s).2 = [TTSOut.clearMsg])) ∧
    (bargeCond s = false → on_speech_started_fn s = (s, [])) := by
  constructor
  · intro hb
    have hres :
        on_speech_started_fn s =
          (let p := tts_cancel_fn s.tts
           let s1 := { s with tts := p.1, is_bot_speaking := false, tts_audio_sent := 0 }
           let s2 :=
             match s1.pending_response_task with
             | some TaskSt.running => { s1 with pending_response_task := some TaskSt.cancelledT }
             | _ => s1
           (s2, p.2)) := by
      unfold on_speech_started_fn
      rw [hb]
      simp
    rw [hres]
    cases hp : s.pending_response_task with
    | none =>
      refine ⟨tts_cancel_fn_cancel_flag s.tts, ?_⟩
      simp [hp, tts_cancel_fn]
      intro hc1 hc2
      simp [hc1, hc2]
    | some ts =>
      cases ts <;>
        · refine ⟨tts_cancel_fn_cancel_flag s.tts, ?_⟩
          simp [hp, tts_cancel_fn]
          intro hc1 hc2
          simp [hc1, hc2]
  · intro hb
    unfold on_speech_started_fn
    rw [hb]
    simp

/-- C1 (witness): the amended theorem applied to the demo session. -/
theorem bargein_amended_witness :
    (on_speech_started_fn bargeDemoSession).1.tts.cancel_flag = true ∧
    (on_speech_started_fn bargeDemoSession).1.is_bot_speaking = false ∧
    (on_speech_started_fn bargeDemoSession).1.tts_audio_sent = 0 ∧
    (on_speech_started_fn bargeDemoSession).1.tts_audio_queue = bargeDemoSession.tts_audio_queue ∧
    (on_speech_started_fn bargeDemoSession).1.pending_response_task = some TaskSt.cancelledT ∧
    (on_speech_started_fn bargeDemoSession).2 = [TTSOut.clearMsg] := by
  have h := (bargein_amended bargeDemoSession).1 (by decide)
  exact ⟨h.1, h.2.1, h.2.2.1, h.2.2.2.1, h.2.2.2.2.1 rfl, h.2.2.2.2.2 rfl rfl⟩

/-- C3 (code behavior at the failing input): for a session still in the
Connecting phase (is_ready and stt_enabled both false, empty buffer), an
inbound media frame is neither forwarded to STT nor appended to the
pre-greeting buffer: the `elif not session.stt_enabled` branch of
handle_media discards it, because stt_enabled is still false before the
greeting, so the buffering `else` branch is unreachable while connecting. -/
theorem connecting_inbound_frame_discarded :
    (handle_media_fn { } "inbound" (some 5)).1.audio_buffer = [] ∧
    (handle_media_fn { } "inbound" (some 5)).2 = none ∧
    (handle_media_fn { } "inbound" (some 5)).1 = { } := by
  decide

/-- C8: starting from empty, any sequence of append / popleft / clear
operations keeps the pre-greeting buffer within 500 frames and the
outbound TTS queue within 1000 frames; an append to a full deque evicts
exactly the oldest frame and preserves the order of the rest. -/
theorem bounded_queues_invariant (ops : List QOp) (l1 l2 : List Frame) (x : Frame)
    (h1 : l1.length = AUDIO_BUFFER_CAP) (h2 : l2.length = TTS_QUEUE_CAP) :
    (runQOps AUDIO_BUFFER_CAP ops).length ≤ AUDIO_BUFFER_CAP ∧
    (runQOps TTS_QUEUE_CAP ops).length ≤ TTS_QUEUE_CAP ∧
    dequeAppend AUDIO_BUFFER_CAP l1 x = l1.drop 1 ++ [x] ∧
    dequeAppend TTS_QUEUE_CAP l2 x = l2.drop 1 ++ [x] := by
  refine ⟨foldl_applyQOp_length_le _ _ [] (by simp),
    foldl_applyQOp_length_le _ _ [] (by simp), ?_, ?_⟩
  · rw [AUDIO_BUFFER_CAP] at h1
    simp [dequeAppend, AUDIO_BUFFER_CAP, h1]
  · rw [TTS_QUEUE_CAP] at h2
    simp [dequeAppend, TTS_QUEUE_CAP, h2]

/-- C8 (witness): the invariant at one push and at two concrete full
deques. -/
theorem bounded_queues_invariant_witness :
    (runQOps AUDIO_BUFFER_CAP [QOp.push 1]).length ≤ AUDIO_BUFFER_CAP ∧
    (runQOps TTS_QUEUE_CAP [QOp.push 1]).length ≤ TTS_QUEUE_CAP ∧
    dequeAppend AUDIO_BUFFER_CAP (List.replicate 500 0) 7 =
      (List.replicate 500 0).drop 1 ++ [7] ∧
    dequeAppend TTS_QUEUE_CAP (List.replicate 1000 0) 7 =
      (List.replicate 1000 0).drop 1 ++ [7] :=
  bounded_queues_invariant [QOp.push 1] (List.replicate 500 0) (List.replicate 1000 0) 7
    (by rw [List.length_replicate]; rfl) (by rw [List.length_replicate]; rfl)

/-- C9: for nonempty text while connected, send_text transmits the text
and follows it with a flush exactly when the final character is one of
the five flush characters. -/
theorem send_text_flush_iff (st : TTSFlags) (t : List Char)
    (hconn : st.has_connection = true) (hc : st.is_connected = true) (ht : t ≠ []) :
    (send_text_fn st t).2 =
      TTSOut.textMsg t :: (if lastFlushChar t then [TTSOut.flushMsg] else []) ∧
    (TTSOut.flushMsg ∈ (send_text_fn st t).2 ↔ lastFlushChar t = true) := by
  have hres : (send_text_fn st t).2 =
      TTSOut.textMsg t :: (if lastFlushChar t then [TTSOut.flushMsg] else []) := by
    unfold send_text_fn
    rw [hconn, hc]
    simp [ht]
    cases hl : lastFlushChar t <;> simp [hl]
  refine ⟨hres, ?_⟩
  rw [hres]
  cases hl : lastFlushChar t <;> simp

/-- C9 (witness): the flush case on a concrete period-terminated text. -/
theorem send_text_flush_iff_witness :
    (send_text_fn { has_connection := true, is_connected := true } ("hi.".toList)).2 =
      TTSOut.textMsg ("hi.".toList) ::
        (if lastFlushChar ("hi.".toList) then [TTSOut.flushMsg] else []) ∧
    (TTSOut.flushMsg ∈
        (send_text_fn { has_connection := true, is_connected := true } ("hi.".toList)).2 ↔
      lastFlushChar ("hi.".toList) = true) :=
  send_text_flush_iff _ _ rfl rfl (by decide)

/-- C10: every completion of _send_greeting, whether or not the try body
raised, leaves stt_enabled and barge_in_enabled true and is_bot_speaking
false, via the finally block. -/
theorem send_greeting_reenables_stt (s : CallSession) (raisesB : Bool) :
    (send_greeting_fn s raisesB).stt_enabled = true ∧
    (send_greeting_fn s raisesB).barge_in_enabled = true ∧
    (send_greeting_fn s raisesB).is_bot_speaking = false := by
  cases raisesB <;> simp [send_greeting_fn]

/-- C2 (counterexample): a barge-in cancellation leaves the user turn of
the interrupted request without an assistant turn, so the next accepted
transcript produces two consecutive user turns: after a cancelled run for
the transcript hi and a completed run for the transcript yo the history
is user/user/assistant, refuting strict alternation over all reachable
event sequences. -/
theorem conversation_alternation_cex :
    alternates (reachableConv
      [CallEvent.userFinished ("hi".toList) (.cancelledMid []),
       CallEvent.userFinished ("yo".toList) (.streamOk [("ok.".toList)])]) = false ∧
    (reachableConv
      [CallEvent.userFinished ("hi".toList) (.cancelledMid []),
       CallEvent.userFinished ("yo".toList) (.streamOk [("ok.".toList)])]).map Message.role =
      ["user", "user", "assistant"] := by
  constructor
  · decide
  · decide

/-- C2 (amended): for every reachable event sequence in which no
generation is cancelled, the conversation history strictly alternates
user/assistant, the user turn coming from an accepted non-empty
transcript and the assistant turn from the completed run. -/
theorem conversation_alternates_without_cancel (es : List CallEvent)
    (h : noCancelEvents es = true) :
    alternates (reachableConv es) = true := by
  have main : ∀ (es : List CallEvent) (hist : List Message),
      noCancelEvents es = true → alternates hist = true → endsAssistant hist = true →
      alternates (es.foldl applyEvent hist) = true ∧
      endsAssistant (es.foldl applyEvent hist) = true := by
    intro es
    induction es with
    | nil => intro hist _ h1 h2; exact ⟨h1, h2⟩
    | cons e es ih =>
      intro hist hnc h1 h2
      have hnc' : noCancelEvents es = true := by
        simp [noCancelEvents, List.all_cons] at hnc
        simpa [noCancelEvents] using hnc.2
      have hstep : alternates (applyEvent hist e) = true ∧
          endsAssistant (applyEvent hist e) = true := by
        cases e with
        | userFinished t o =>
          have ho : isCancelledO o = false := by
            simp [noCancelEvents, List.all_cons] at hnc
            simpa using hnc.1
          unfold applyEvent
          by_cases hs : stripL t = []
          · simpa [hs] using ⟨h1, h2⟩
          · simp only [hs, if_neg, ite_false]
            obtain ⟨m, hm⟩ := grs_shape hist t o ho
            rw [hm]
            exact alternates_append_pair t m hist h1 h2
      simpa using ih (applyEvent hist e) hnc' hstep.1 hstep.2
  exact (main es [] h rfl rfl).1

/-- C2 (witness): a cancel-free sequence of two completed turns
alternates. -/
theorem conversation_alternates_witness :
    alternates (reachableConv
      [CallEvent.userFinished ("hi".toList) (.streamOk [("ok.".toList)]),
       CallEvent.userFinished ("more".toList) .requestFail]) = true :=
  conversation_alternates_without_cancel _ (by decide)

/-- C4: every non-cancelled run of generate_response_stream appends
exactly the user turn and one assistant turn: the concatenation of all
extracted fragments when the stream completed with text, and otherwise a
canned apology that is also the last yielded fragment. -/
theorem grs_single_assistant_turn (hist : List Message) (u : List Char) (o : LLMOutcome)
    (h : isCancelledO o = false) :
    (generate_response_stream hist u o).1 =
      hist ++ [⟨"user", u⟩, ⟨"assistant", assistantTextOf o⟩] ∧
    (successNonempty o = true → assistantTextOf o = (fragsOf o).flatten) ∧
    (successNonempty o = false →
      isApology (assistantTextOf o) = true ∧
      (generate_response_stream hist u o).2.getLast? = some (assistantTextOf o)) := by
  cases o with
  | requestFail =>
    refine ⟨by simp [generate_response_stream, assistantTextOf], by simp [successNonempty], ?_⟩
    intro _
    exact ⟨by decide, by simp [generate_response_stream, assistantTextOf]⟩
  | streamOk frags =>
    by_cases hf : frags.flatten = []
    · refine ⟨by simp [generate_response_stream, assistantTextOf, hf], ?_, ?_⟩
      · intro hs
        simp [successNonempty, hf] at hs
      · intro _
        refine ⟨by simp [assistantTextOf, hf]; decide, ?_⟩
        simp [generate_response_stream, assistantTextOf, hf]
    · refine ⟨by simp [generate_response_stream, assistantTextOf, hf], ?_, ?_⟩
      · intro _
        simp [assistantTextOf, hf, fragsOf]
      · intro hs
        simp [successNonempty, hf] at hs
  | clientErr frags =>
    refine ⟨by simp [generate_response_stream, assistantTextOf], by simp [successNonempty], ?_⟩
    intro _
    exact ⟨show isApology fb_connecting = true by decide,
      by simp [generate_response_stream, assistantTextOf]⟩
  | otherErr frags =>
    refine ⟨by simp [generate_response_stream, assistantTextOf], by simp [successNonempty], ?_⟩
    intro _
    exact ⟨show isApology fb_responding = true by decide,
      by simp [generate_response_stream, assistantTextOf]⟩
  | cancelledMid frags => simp [isCancelledO] at h

/-- C4 (witness): the shape at a concrete successful run and a concrete
failed request. -/
theorem grs_single_assistant_turn_witness :
    (generate_response_stream [] ("q".toList) .requestFail).1 =
      [] ++ [⟨"user", ("q".toList)⟩, ⟨"assistant", assistantTextOf .requestFail⟩] ∧
    isApology (assistantTextOf .requestFail) = true ∧
    (generate_response_stream [] ("q".toList) .requestFail).2.getLast? =
      some (assistantTextOf .requestFail) := by
  have h := grs_single_assistant_turn [] ("q".toList) .requestFail rfl
  exact ⟨h.1, (h.2.2 rfl).1, (h.2.2 rfl).2⟩

/-- C5: a final transcript with speech_final set emits the composed
transcript to the user-finished handler once and resets the buffers, so
an immediately following utterance_end composes an empty transcript and
emits nothing: one invocation in total. -/
theorem speech_final_then_utterance_end_once (st : STTSt) (t : List Char)
    (ht : t ≠ [])
    (hfull : get_full_transcript
      { st with transcript_parts := st.transcript_parts ++ [t] } ≠ []) :
    (handle_transcript st t true true).2 =
      [get_full_transcript { st with transcript_parts := st.transcript_parts ++ [t] }] ∧
    (handle_utterance_end_fn (handle_transcript st t true true).1).2 = [] ∧
    ((handle_transcript st t true true).2 ++
      (handle_utterance_end_fn (handle_transcript st t true true).1).2).length = 1 := by
  have hht : handle_transcript st t true true =
      (reset_transcript { st with transcript_parts := st.transcript_parts ++ [t] },
       [get_full_transcript { st with transcript_parts := st.transcript_parts ++ [t] }]) := by
    unfold handle_transcript
    simp [ht, hfull]
  refine ⟨by rw [hht], ?_, ?_⟩
  · rw [hht]
    simp [handle_utterance_end_fn, reset_transcript, get_full_transcript, stripL,
      lstripL, rstripL, List.intercalate]
  · rw [hht]
    simp [handle_utterance_end_fn, reset_transcript, get_full_transcript, stripL,
      lstripL, rstripL, List.intercalate]

/-- C5 (witness): the double-event run on a single final segment. -/
theorem speech_final_then_utterance_end_once_witness :
    (handle_transcript { } ("hi".toList) true true).2 =
      [get_full_transcript
        { ({ } : STTSt) with
          transcript_parts := ({ } : STTSt).transcript_parts ++ [("hi".toList)] }] ∧
    (handle_utterance_end_fn (handle_transcript { } ("hi".toList) true true).1).2 = [] ∧
    ((handle_transcript { } ("hi".toList) true true).2 ++
      (handle_utterance_end_fn (handle_transcript { } ("hi".toList) true true).1).2).length = 1 :=
  speech_final_then_utterance_end_once { } ("hi".toList) (by decide) (by decide)

/-- C6: from the state left by cancel(), any sequence of TTS events not
containing reset_cancel delivers no audio frame to on_audio and leaves
the session outbound queue untouched; once reset_cancel runs, the audio
branch of _process_message delivers again whenever a callback is
registered. -/
theorem cancel_drops_audio_until_reset (st : TTSFlags) (reg active : Bool)
    (q : List Frame) (es : List TTSEvt) :
    deliveredAudio reg (tts_cancel_fn st).1 es = [] ∧
    runTTSQueue reg active (tts_cancel_fn st).1 q es = q ∧
    audioDelivered reg (reset_cancel_fn (es.foldl ttsEvtStep (tts_cancel_fn st).1)) = reg := by
  refine ⟨deliveredAudio_nil_of_cancel reg es _ (tts_cancel_fn_cancel_flag st),
    runTTSQueue_const_of_cancel reg active es _ q (tts_cancel_fn_cancel_flag st), ?_⟩
  simp [audioDelivered, reset_cancel_fn]

/-- C7 (counterexample): the claim says the buffer is yielded exactly
when it ends with a sentence terminator or exceeds 40 characters with a
space-final fragment; the code right-strips the buffer first, so the
fragment consisting of the four characters H i period space is yielded
although the literal condition is false. -/
theorem chunk_yield_rstrip_cex :
    (chunkStep [] ("Hi. ".toList)).1 ≠ [] ∧
    specYieldCond ("Hi. ".toList) ("Hi. ".toList) = false := by
  decide

/-- C7 (amended): a nonempty fragment makes the chunking loop yield the
buffer exactly when the buffer, after stripping trailing whitespace, ends
with a sentence terminator, or when it exceeds 40 characters and the
fragment ends with a space; no text is lost, and on a completed nonempty
stream the concatenation of all yielded fragments equals the full
response. -/
theorem chunk_policy_amended (buf frag : List Char) (hist : List Message)
    (u : List Char) (frags : List (List Char)) (hf : frag ≠ []) :
    ((chunkStep buf frag).1 ≠ [] ↔
      (sentenceEndB (buf ++ frag) ||
        (decide (40 < (buf ++ frag).length) && endsSpaceB frag)) = true) ∧
    ((chunkRun frags).1.flatten ++ (chunkRun frags).2 = frags.flatten) ∧
    (frags.flatten ≠ [] →
      (generate_response_stream hist u (.streamOk frags)).2.flatten = frags.flatten) := by
  refine ⟨?_, chunkRunAux_flatten frags [], ?_⟩
  · unfold chunkStep
    simp only [hf, if_neg, ite_false]
    cases h1 : sentenceEndB (buf ++ frag) with
    | true => simp [h1]
    | false =>
      cases h2 : decide (40 < (buf ++ frag).length) && endsSpaceB frag with
      | true => simp [h1, h2]
      | false => simp [h1, h2]
  · intro hne
    have hjoin := chunkRunAux_flatten frags []
    have hy : (generate_response_stream hist u (.streamOk frags)).2 =
        (chunkRunAux [] frags).1 ++
          (if (chunkRunAux [] frags).2 = [] then []
           else [(chunkRunAux [] frags).2]) := by
      unfold generate_response_stream chunkRun
      simp [hne]
    rw [hy]
    by_cases hb : (chunkRunAux [] frags).2 = []
    · simpa [hb] using hjoin
    · simpa [hb] using hjoin

/-- C7 (witness): the amended yield condition and the reassembly on a
concrete three-fragment stream. -/
theorem chunk_policy_amended_witness :
    ((chunkStep [] ("Hi. ".toList)).1 ≠ [] ↔
      (sentenceEndB ([] ++ "Hi. ".toList) ||
        (decide (40 < (([] : List Char) ++ "Hi. ".toList).length) &&
          endsSpaceB ("Hi. ".toList))) = true) ∧
    ((chunkRun [("It".toList), (" is".toList), (" sunny.".toList)]).1.flatten ++
        (chunkRun [("It".toList), (" is".toList), (" sunny.".toList)]).2 =
      [("It".toList), (" is".toList), (" sunny.".toList)].flatten) ∧
    (generate_response_stream [] ("q".toList)
        (.streamOk [("It".toList), (" is".toList), (" sunny.".toList)])).2.flatten =
      [("It".toList), (" is".toList), (" sunny.".toList)].flatten := by
  have h := chunk_policy_amended [] ("Hi. ".toList) [] ("q".toList)
    [("It".toList), (" is".toList), (" sunny.".toList)] (by decide)
  exact ⟨h.1, h.2.1, h.2.2 (by decide)⟩

end VoiceCaller
